import Mathlib

/-!
Verification of the state-synchronization and action-resolution layer of the
DouZero LLM agent (`douzero/evaluation/llm_agent.py`, entry point `play.py`).

Cards are integer ranks in {3..14, 17, 20, 30}; a move is a list of ranks and
the empty list denotes a pass.  The embedding below translates, function by
function, the pieces of `LLMAgent` that the verified properties depend on:
the card codec (`EnvCard2RealCard` / `RealCard2EnvCard`), the deck-inventory
computation (`_calculate_unknown_cards_str`), the history reconstructor
(`_reconstruct_history` via `_update_game_state`), the action resolver
(`parse_card_response`) and the per-turn driver (`act`), plus the player
setup of `play.py`'s `main` for the LLM seat.
-/

namespace DouZeroLLM

/-- Card codec of the source (`EnvCard2RealCard` dict in `LLMAgent.__init__`):
engine rank to display token. -/
def EnvCard2RealCard : List (Nat × String) :=
  [(3, "3"), (4, "4"), (5, "5"), (6, "6"), (7, "7"), (8, "8"), (9, "9"),
   (10, "10"), (11, "J"), (12, "Q"), (13, "K"), (14, "A"), (17, "2"),
   (20, "小王"), (30, "大王")]

/-- Reverse codec (`RealCard2EnvCard = {v: k for k, v in EnvCard2RealCard.items()}`):
display token back to engine rank, `none` for an unmapped token. -/
def RealCard2EnvCard (s : String) : Option Nat :=
  (EnvCard2RealCard.find? (fun p => p.2 == s)).map (fun p => p.1)

/-- Display name of a rank, with the source's `str(card)` fallback for a rank
outside the codec (`EnvCard2RealCard.get(card, str(card))`). -/
def envCardName (c : Nat) : String :=
  match EnvCard2RealCard.find? (fun p => p.1 == c) with
  | some p => p.2
  | none => toString c

/-- The 54-card full deck built in `_calculate_unknown_cards_str`:
four each of ranks 3..14, four 17s (the rank of "2"), one 20 and one 30
(the jokers). -/
def full_deck : List Nat :=
  ((List.range' 3 12).map (fun i => List.replicate 4 i)).flatten ++
    List.replicate 4 17 ++ [20, 30]

/-- The distinct ranks of the full deck, in ascending order. -/
def cardDomain : List Nat := List.range' 3 12 ++ [17, 20, 30]

/-- Expand a per-rank count function over a list of ranks into the flat list
holding each rank `count` times, in the order the ranks are listed. -/
def expandCounts : List Nat → (Nat → Nat) → List Nat
  | [], _ => []
  | k :: t, f => List.replicate (f k) k ++ expandCounts t f

/-- Deck-inventory computation of `_calculate_unknown_cards_str`, before
rendering: start from the full deck's counter, subtract the hand counter and
the flattened played-move counter (Python `Counter` subtraction keeps only
positive counts, i.e. truncated subtraction per rank), then list the ranks
with positive count in ascending order. -/
def calculateUnknownCards (hand : List Nat) (played : List (List Nat)) : List Nat :=
  let played_cards_flat := (played.filter (fun m => !m.isEmpty)).flatten
  expandCounts cardDomain
    (fun r => full_deck.count r - hand.count r - played_cards_flat.count r)

/-- Insert into a sorted list, keeping it sorted ascending. -/
def insertSorted (x : Nat) : List Nat → List Nat
  | [] => [x]
  | y :: t => if x ≤ y then x :: y :: t else y :: insertSorted x t

/-- Ascending insertion sort, the semantics of Python's `sorted` on ranks. -/
def sortCards (l : List Nat) : List Nat := l.foldr insertSorted []

/-- Python `sep.join(parts)`. -/
def pyJoin (sep : String) : List String → String
  | [] => ""
  | [s] => s
  | s :: t => s ++ sep ++ pyJoin sep t

/-- `format_hand_cards_compact`: sorted distinct ranks, each display name
repeated its multiplicity, concatenated with no separator. -/
def format_hand_cards_compact (cards : List Nat) : String :=
  pyJoin "" ((sortCards cards).dedup.map
    (fun k => pyJoin "" (List.replicate (cards.count k) (envCardName k))))

/-- `_calculate_unknown_cards_str`: the deck-inventory result rendered in the
compact hand format; the source reads `hand` and `played` from
`self.game_state`. -/
def calculate_unknown_cards_str (hand : List Nat) (played : List (List Nat)) :
    String :=
  format_hand_cards_compact (calculateUnknownCards hand played)

/-- Turn rotation used by `_reconstruct_history`:
`players = ['landlord', 'landlord_down', 'landlord_up']`. -/
def players : List String := ["landlord", "landlord_down", "landlord_up"]

/-- The fields of `self.game_state` that the resolution layer reads and
writes (`hand_cards`, `last_move`, `played_cards`,
`played_cards_with_player`). -/
structure GameState where
  hand_cards : List Nat
  last_move : Option (List Nat)
  played_cards : List (List Nat)
  played_cards_with_player : List (String × List Nat)
  deriving DecidableEq, Repr

/-- The state built by `init_game_state`: empty hand, no last move, empty
played-move records. -/
def initGameState : GameState :=
  { hand_cards := [], last_move := none, played_cards := [],
    played_cards_with_player := [] }

/-- The loop body of `_reconstruct_history`: append each new action to
`played_cards_with_player` attributed to `players[global_idx % 3]`, and each
non-empty action to `played_cards`. -/
def appendActions (st : GameState) : List (List Nat) → Nat → GameState
  | [], _ => st
  | a :: rest, global_idx =>
    let player := players.getD (global_idx % 3) ""
    let st' : GameState :=
      { st with
        played_cards_with_player := st.played_cards_with_player ++ [(player, a)],
        played_cards :=
          if a.isEmpty then st.played_cards else st.played_cards ++ [a] }
    appendActions st' rest (global_idx + 1)

/-- `_reconstruct_history(action_seq)`: return unchanged on an empty sequence;
with `current_len = len(played_cards_with_player)`, reset both played lists
and replay from index 0 when the sequence is strictly shorter, return
unchanged when the length is equal, and otherwise process only the suffix of
new actions. -/
def reconstructHistory (st : GameState) (action_seq : List (List Nat)) : GameState :=
  if action_seq.isEmpty then st
  else
    let current_len := st.played_cards_with_player.length
    if action_seq.length ≤ current_len then
      if action_seq.length < current_len then
        appendActions
          { st with played_cards_with_player := [], played_cards := [] }
          action_seq 0
      else st
    else
      appendActions st (action_seq.drop current_len) current_len

/-- The per-turn engine input the agent reads (`infoset`): hand, last move
(empty list when absent, matching Python truthiness), the full action
sequence and the legal-move list. -/
structure Infoset where
  player_hand_cards : List Nat
  last_move : List Nat
  card_play_action_seq : List (List Nat)
  legal_actions : List (List Nat)
  deriving DecidableEq, Repr

/-- `_update_game_state(infoset)`: copy the hand, update `last_move` only when
the infoset's last move is truthy (non-empty), then rebuild history from
`card_play_action_seq`. -/
def updateGameState (st : GameState) (infoset : Infoset) : GameState :=
  reconstructHistory
    (if infoset.last_move.isEmpty then
      { st with hand_cards := infoset.player_hand_cards }
    else
      { st with hand_cards := infoset.player_hand_cards,
                last_move := some infoset.last_move })
    infoset.card_play_action_seq

/-- The `cards` field of the oracle's JSON decision: either a string or a
list of strings (the source stringifies a list by joining with single
spaces). -/
inductive CardsField where
  | str (s : String)
  | list (l : List String)
  deriving DecidableEq, Repr

/-- A parsed oracle decision object; `cards = none` models a JSON object with
no usable `cards` key. -/
structure Decision where
  cards : Option CardsField
  deriving DecidableEq, Repr

/-- Python `Counter(a) == Counter(b)`: every rank occurring in either list
has the same multiplicity in both. -/
def counterEq (a b : List Nat) : Bool :=
  ((a ++ b).dedup).all (fun x => a.count x == b.count x)

/-- Drop leading whitespace characters. -/
def dropLeadingWs : List Char → List Char
  | [] => []
  | c :: t => if c.isWhitespace then dropLeadingWs t else c :: t

/-- Python `str.strip()`: remove leading and trailing whitespace. -/
def pyStrip (s : String) : String :=
  ⟨(dropLeadingWs (dropLeadingWs s.toList).reverse).reverse⟩

/-- Python `str.replace(a, b)` for single-character `a` and `b`. -/
def pyReplaceChar (s : String) (a b : Char) : String :=
  ⟨s.toList.map (fun c => if c = a then b else c)⟩

/-- Python `str.lower()` (ASCII case folding, which covers the tokens the
resolver compares). -/
def pyLower (s : String) : String :=
  ⟨s.toList.map Char.toLower⟩

/-- Accumulator loop behind `pySplitWs`. -/
def pySplitWsAux : List Char → List Char → List String
  | [], cur => if cur.isEmpty then [] else [⟨cur.reverse⟩]
  | c :: t, cur =>
    if c.isWhitespace then
      if cur.isEmpty then pySplitWsAux t []
      else (⟨cur.reverse⟩ : String) :: pySplitWsAux t []
    else pySplitWsAux t (c :: cur)

/-- Python `str.split()` with no argument: split on runs of whitespace,
discarding empty fields. -/
def pySplitWs (s : String) : List String := pySplitWsAux s.toList []

/-- Tokenization step of `parse_card_response`: replace the full-width comma
by a space, strip, and split on whitespace. -/
def normalizeTokens (cards_str : String) : List String :=
  pySplitWs (pyStrip (pyReplaceChar cards_str '，' ' '))

/-- Card list extracted from a designation string: each token mapped through
the reverse codec, unmapped tokens dropped. -/
def parsedCards (cards_str : String) : List Nat :=
  (normalizeTokens cards_str).filterMap RealCard2EnvCard

/-- Stringification of the `cards` field in `parse_card_response`: a
list-typed field is joined with single spaces, anything else is used as the
string it already is. -/
def rawToStr : CardsField → String
  | .list l => pyJoin " " l
  | .str s => s

/-- Outcome of `parse_card_response`: an index into the legal-move list, or
the `RuntimeError` raised when the parsed cards match no legal move. -/
inductive ParseResult where
  | idx (i : Nat)
  | illegal
  deriving DecidableEq, Repr

/-- `parse_card_response(decision, legal_actions)`: return 0 when the
decision is absent or has no `cards` key; join a list-typed field with
spaces and strip; on the pass tokens (`"过牌"`, or `"pass"` after
lowercasing) return the first empty legal action's index, 0 when none;
otherwise tokenize, map tokens through the reverse codec dropping unmapped
ones, return 0 when nothing parsed, return the first legal action with equal
`Counter`, and raise (`.illegal`) when none matches. -/
def parse_card_response (decision : Option Decision)
    (legal_actions : List (List Nat)) : ParseResult :=
  match decision with
  | none => .idx 0
  | some d =>
    match d.cards with
    | none => .idx 0
    | some raw =>
      let cards_str := pyStrip (rawToStr raw)
      if cards_str = "过牌" ∨ pyLower cards_str = "pass" then
        match legal_actions.findIdx? (fun a => a.isEmpty) with
        | some i => .idx i
        | none => .idx 0
      else
        let cards_list := parsedCards cards_str
        if cards_list.isEmpty then .idx 0
        else
          match legal_actions.findIdx? (fun a => counterEq a cards_list) with
          | some i => .idx i
          | none => .illegal

/-- Result of `call_llm_api_json`: `failure` is the `None` return (transport
error, non-200 status, or a JSON parse failure), `success` carries the
decoded decision object. -/
inductive OracleRes where
  | failure
  | success (d : Decision)
  deriving DecidableEq, Repr

/-- Observable per-turn events of `act`: the forced-move log record, the
outgoing API request, and the printed illegal-move warning from the caught
`RuntimeError`. -/
inductive TurnEvent where
  | forcedMove
  | apiCall
  | illegalMoveWarning
  deriving DecidableEq, Repr

/-- What one `act` call produces: the returned action, the updated
`game_state`, and the observable events in order. -/
structure ActResult where
  action : List Nat
  state : GameState
  events : List TurnEvent
  deriving DecidableEq, Repr

/-- Appending the chosen action to `played_cards` as `act` does:
`if action and action not in self.game_state['played_cards']`. -/
def recordOwnMove (st : GameState) (action : List Nat) : GameState :=
  if ¬action.isEmpty ∧ action ∉ st.played_cards then
    { st with played_cards := st.played_cards ++ [action] }
  else st

/-- `act(infoset)`: first `_update_game_state`; with a single legal action
return it directly (forced move, logged, no API call); otherwise build the
prompt (which runs `_update_game_state` once more), call the API, fall back
to `legal_actions[0]` when the call failed, else resolve the decision with
`parse_card_response`, mapping the `RuntimeError` to index 0 with a warning;
finally record the chosen non-pass action in `played_cards` when it is not
already present. -/
def act (st : GameState) (infoset : Infoset) (oracle : OracleRes) : ActResult :=
  let st1 := updateGameState st infoset
  if infoset.legal_actions.length = 1 then
    { action := infoset.legal_actions.headD [], state := st1,
      events := [.forcedMove] }
  else
    let st2 := updateGameState st1 infoset
    match oracle with
    | .failure =>
      let action := infoset.legal_actions.headD []
      { action := action, state := recordOwnMove st2 action,
        events := [.apiCall] }
    | .success d =>
      match parse_card_response (some d) infoset.legal_actions with
      | .idx i =>
        let action := infoset.legal_actions.getD i []
        { action := action, state := recordOwnMove st2 action,
          events := [.apiCall] }
      | .illegal =>
        let action := infoset.legal_actions.getD 0 []
        { action := action, state := recordOwnMove st2 action,
          events := [.apiCall, .illegalMoveWarning] }

/-- Method and instance-attribute names defined on `LLMAgent`. -/
def llmAgentAttrs : List String :=
  ["name", "position", "api_url", "model", "api_key", "headers",
   "debug_mode", "game_id", "round_count", "log_file_path", "game_state",
   "EnvCard2RealCard", "RealCard2EnvCard",
   "init_game_state", "format_cards", "format_hand_cards",
   "format_hand_cards_compact", "get_position_name", "start_new_game",
   "_debug_messages_to_file", "_debug_llm_response_to_file",
   "_debug_forced_move_to_file", "create_comprehensive_prompt",
   "_calculate_unknown_cards_str", "_update_game_state",
   "_reconstruct_history", "_calculate_remaining_cards",
   "_get_played_big_cards", "call_llm_api_json",
   "parse_card_response", "act"]

/-- Failure modes of `play.py`'s per-seat player setup. -/
inductive SetupError where
  | missingApiKey
  | attributeError (name : String)
  deriving DecidableEq, Repr

/-- Setup of an `llm` seat in `play.py`'s `main` loop: require the API key,
and on the first game (`game_id == 0`) invoke
`players[pos].reset_conversation_history()`, which is an attribute lookup on
the `LLMAgent` instance. -/
def setupLLMSeat (game_id : Nat) (api_key : Option String) :
    Except SetupError Unit :=
  match api_key with
  | none => .error .missingApiKey
  | some _ =>
    if game_id = 0 then
      if "reset_conversation_history" ∈ llmAgentAttrs then .ok ()
      else .error (.attributeError "reset_conversation_history")
    else .ok ()

/-! ## Supporting lemmas -/

theorem findIdx?_some_lt {α : Type} (p : α → Bool) (l : List α) (i : Nat)
    (h : l.findIdx? p = some i) : i < l.length :=
  (List.findIdx?_eq_some_iff_findIdx_eq.mp h).1

theorem getD_mem_of_lt {α : Type} :
    ∀ (l : List α) (i : Nat) (d : α), i < l.length → l.getD i d ∈ l := by
  intro l
  induction l with
  | nil => intro i d h; simp at h
  | cons x t ih =>
    intro i d h
    cases i with
    | zero => simp
    | succ j =>
      simp only [List.getD_cons_succ]
      exact List.mem_cons_of_mem x (ih j d (by simpa using h))

theorem appendActions_played_cards (l : List (List Nat)) :
    ∀ (st : GameState) (k : Nat),
      (appendActions st l k).played_cards =
        st.played_cards ++ l.filter (fun a => !a.isEmpty) := by
  induction l with
  | nil => intro st k; simp [appendActions]
  | cons a rest ih =>
    intro st k
    rw [appendActions, ih]
    by_cases ha : a.isEmpty <;> simp [ha, List.filter_cons]

theorem appendActions_wp_length (l : List (List Nat)) :
    ∀ (st : GameState) (k : Nat),
      (appendActions st l k).played_cards_with_player.length =
        st.played_cards_with_player.length + l.length := by
  induction l with
  | nil => intro st k; simp [appendActions]
  | cons a rest ih =>
    intro st k
    rw [appendActions, ih]
    simp
    omega

theorem appendActions_hand_cards (l : List (List Nat)) :
    ∀ (st : GameState) (k : Nat),
      (appendActions st l k).hand_cards = st.hand_cards := by
  induction l with
  | nil => intro st k; rfl
  | cons a rest ih => intro st k; rw [appendActions, ih]

theorem appendActions_last_move (l : List (List Nat)) :
    ∀ (st : GameState) (k : Nat),
      (appendActions st l k).last_move = st.last_move := by
  induction l with
  | nil => intro st k; rfl
  | cons a rest ih => intro st k; rw [appendActions, ih]

theorem reconstructHistory_wp_length (st : GameState)
    (seq : List (List Nat)) (h : seq ≠ []) :
    (reconstructHistory st seq).played_cards_with_player.length = seq.length := by
  rw [reconstructHistory]
  have hne : seq.isEmpty = false := by simpa [List.isEmpty_iff] using h
  rw [hne]
  simp only [Bool.false_eq_true, if_false]
  by_cases h1 : seq.length ≤ st.played_cards_with_player.length
  · by_cases h2 : seq.length < st.played_cards_with_player.length
    · simp [h1, h2, appendActions_wp_length]
    · have heq : seq.length = st.played_cards_with_player.length := by omega
      simp [h1, h2, heq]
  · simp only [h1, if_false]
    rw [appendActions_wp_length]
    simp
    omega

theorem reconstructHistory_of_length_eq (st : GameState)
    (seq : List (List Nat))
    (h : st.played_cards_with_player.length = seq.length) :
    reconstructHistory st seq = st := by
  by_cases hseq : seq = []
  · subst hseq; simp [reconstructHistory]
  · rw [reconstructHistory]
    have hne : seq.isEmpty = false := by simpa [List.isEmpty_iff] using hseq
    rw [hne]
    simp [h]

theorem reconstructHistory_twice (st : GameState) (seq : List (List Nat)) :
    reconstructHistory (reconstructHistory st seq) seq =
      reconstructHistory st seq := by
  by_cases hseq : seq = []
  · subst hseq; simp [reconstructHistory]
  · exact reconstructHistory_of_length_eq _ _
      (reconstructHistory_wp_length st seq hseq)

theorem reconstructHistory_hand_cards (st : GameState) (seq : List (List Nat)) :
    (reconstructHistory st seq).hand_cards = st.hand_cards := by
  simp only [reconstructHistory]
  split
  · rfl
  · split
    · split
      · rw [appendActions_hand_cards]
      · rfl
    · rw [appendActions_hand_cards]

theorem reconstructHistory_last_move (st : GameState) (seq : List (List Nat)) :
    (reconstructHistory st seq).last_move = st.last_move := by
  simp only [reconstructHistory]
  split
  · rfl
  · split
    · split
      · rw [appendActions_last_move]
      · rfl
    · rw [appendActions_last_move]

theorem reconstructHistory_shrink (st : GameState) (seq : List (List Nat))
    (hne : seq ≠ []) (hlt : seq.length < st.played_cards_with_player.length) :
    reconstructHistory st seq =
      reconstructHistory
        { st with played_cards := [], played_cards_with_player := [] } seq := by
  have he : seq.isEmpty = false := by simpa [List.isEmpty_iff] using hne
  have hpos : 0 < seq.length := List.length_pos.mpr hne
  rw [reconstructHistory, reconstructHistory, he]
  simp only [Bool.false_eq_true, if_false]
  rw [if_pos (le_of_lt hlt), if_pos hlt]
  have h0 : ¬seq.length ≤
      (GameState.played_cards_with_player
        { st with played_cards := [], played_cards_with_player := [] }).length := by
    show ¬seq.length ≤ 0
    omega
  rw [if_neg h0]
  simp [List.drop_zero]

theorem updateGameState_hand_cards (st : GameState) (i : Infoset) :
    (updateGameState st i).hand_cards = i.player_hand_cards := by
  rw [updateGameState, reconstructHistory_hand_cards]
  split <;> rfl

theorem updateGameState_last_move_of_ne (st : GameState) (i : Infoset)
    (h : i.last_move.isEmpty = false) :
    (updateGameState st i).last_move = some i.last_move := by
  rw [updateGameState, reconstructHistory_last_move]
  rw [if_neg (by simp [h])]

theorem updateGameState_wp_length (st : GameState) (i : Infoset)
    (h : i.card_play_action_seq ≠ []) :
    (updateGameState st i).played_cards_with_player.length =
      i.card_play_action_seq.length := by
  rw [updateGameState]
  exact reconstructHistory_wp_length _ _ h

theorem updateGameState_idem (st : GameState) (i : Infoset) :
    updateGameState (updateGameState st i) i = updateGameState st i := by
  have hhand := updateGameState_hand_cards st i
  conv_lhs => rw [updateGameState]
  have hbase :
      (if i.last_move.isEmpty then
        { updateGameState st i with hand_cards := i.player_hand_cards }
      else
        { updateGameState st i with hand_cards := i.player_hand_cards,
                                    last_move := some i.last_move }) =
        updateGameState st i := by
    by_cases hl : i.last_move.isEmpty
    · rw [if_pos hl]
      cases hA : updateGameState st i
      simp_all
    · rw [if_neg hl]
      have hlast := updateGameState_last_move_of_ne st i (by simpa using hl)
      cases hA : updateGameState st i
      simp_all
  rw [hbase]
  conv_lhs => rw [updateGameState]
  rw [reconstructHistory_twice]
  rw [updateGameState]

theorem count_expandCounts (f : Nat → Nat) (r : Nat) :
    ∀ l : List Nat, l.Nodup →
      (expandCounts l f).count r = if r ∈ l then f r else 0 := by
  intro l
  induction l with
  | nil => intro _; simp [expandCounts]
  | cons k t ih =>
    intro hnd
    rw [List.nodup_cons] at hnd
    rw [expandCounts, List.count_append, List.count_replicate, ih hnd.2]
    by_cases hrk : r = k
    · subst hrk
      simp [hnd.1]
    · simp [hrk, Ne.symm hrk]

theorem parse_pass_eq (raw : CardsField) (la : List (List Nat))
    (hp : pyStrip (rawToStr raw) = "过牌" ∨
      pyLower (pyStrip (rawToStr raw)) = "pass") :
    parse_card_response (some ⟨some raw⟩) la =
      .idx ((la.findIdx? (fun a => a.isEmpty)).getD 0) := by
  simp only [parse_card_response]
  rw [if_pos hp]
  cases hf : la.findIdx? (fun a => a.isEmpty) <;> simp [hf]

theorem parse_nonpass_eq (raw : CardsField) (la : List (List Nat))
    (hp : ¬(pyStrip (rawToStr raw) = "过牌" ∨
      pyLower (pyStrip (rawToStr raw)) = "pass"))
    (hemp : (parsedCards (pyStrip (rawToStr raw))).isEmpty = false) :
    parse_card_response (some ⟨some raw⟩) la =
      match la.findIdx?
          (fun a => counterEq a (parsedCards (pyStrip (rawToStr raw)))) with
      | some i => .idx i
      | none => .illegal := by
  simp only [parse_card_response]
  rw [if_neg hp, if_neg (by simp [hemp])]

theorem parse_idx_lt (d : Option Decision) (la : List (List Nat)) (i : Nat)
    (hne : la ≠ []) (h : parse_card_response d la = .idx i) : i < la.length := by
  have hpos : 0 < la.length := List.length_pos.mpr hne
  cases d with
  | none =>
    simp only [parse_card_response, ParseResult.idx.injEq] at h
    omega
  | some dd =>
    cases hc : dd.cards with
    | none =>
      simp only [parse_card_response, hc, ParseResult.idx.injEq] at h
      omega
    | some raw =>
      simp only [parse_card_response, hc] at h
      by_cases hp : pyStrip (rawToStr raw) = "过牌" ∨
          pyLower (pyStrip (rawToStr raw)) = "pass"
      · rw [if_pos hp] at h
        cases hf : la.findIdx? (fun a => a.isEmpty) with
        | none => rw [hf] at h; simp at h; omega
        | some j =>
          rw [hf] at h
          simp at h
          subst h
          exact findIdx?_some_lt _ la _ hf
      · rw [if_neg hp] at h
        by_cases hemp : (parsedCards (pyStrip (rawToStr raw))).isEmpty = true
        · rw [if_pos hemp] at h
          simp at h
          omega
        · rw [if_neg hemp] at h
          cases hf : la.findIdx?
              (fun a => counterEq a (parsedCards (pyStrip (rawToStr raw)))) with
          | none => rw [hf] at h; simp at h
          | some j =>
            rw [hf] at h
            simp at h
            subst h
            exact findIdx?_some_lt _ la _ hf

theorem headD_mem {α : Type} (l : List α) (d : α) (h : l ≠ []) :
    l.headD d ∈ l := by
  cases l with
  | nil => exact absurd rfl h
  | cons a t => simp

theorem getD_zero_eq_headD {α : Type} (l : List α) (d : α) :
    l.getD 0 d = l.headD d := by
  cases l <;> rfl

/-! ## Claims -/

/-- C1 counterexample: with hand `[3,3,3,3,3]` and played moves `[[3]]` the
per-rank budget of rank 3 is exceeded (4 < 6), yet `_calculate_unknown_cards_str`
does not signal anything: it completes normally, silently clamping rank 3's
count to zero, and hands back an ordinary rendered string. -/
theorem unknown_cards_silently_clamped_cex :
    full_deck.count 3 <
      List.count 3 [3, 3, 3, 3, 3] +
        (([[3]] : List (List Nat)).filter (fun m => !m.isEmpty)).flatten.count 3 ∧
    (calculateUnknownCards [3, 3, 3, 3, 3] [[3]]).count 3 = 0 ∧
    calculate_unknown_cards_str [3, 3, 3, 3, 3] [[3]] ≠ "" := by
  refine ⟨by decide, by decide, by decide⟩

/-- C1 (amended): the Deck Inventory never fails: for every hand, played-move
list and rank of the deck, the unknown count of that rank is the truncated
(never negative, silently clamped at zero) difference of the full-deck count
minus the hand count minus the flattened played count. -/
theorem unknown_cards_truncated_subtraction (hand : List Nat)
    (played : List (List Nat)) (r : Nat) (hr : r ∈ cardDomain) :
    (calculateUnknownCards hand played).count r =
      full_deck.count r - hand.count r -
        ((played.filter (fun m => !m.isEmpty)).flatten).count r := by
  simp only [calculateUnknownCards]
  rw [count_expandCounts _ _ cardDomain (by decide)]
  simp [hr]

/-- Witness for the amended C1 at a concrete over-subscribed input. -/
theorem unknown_cards_truncated_subtraction_witness :
    3 ∈ cardDomain ∧
    (calculateUnknownCards [3, 3, 3, 3, 3] [[3]]).count 3 =
      full_deck.count 3 - List.count 3 [3, 3, 3, 3, 3] -
        ((([[3]] : List (List Nat)).filter (fun m => !m.isEmpty)).flatten).count 3 :=
  ⟨by decide, unknown_cards_truncated_subtraction [3, 3, 3, 3, 3] [[3]] 3 (by decide)⟩

/-- C2 counterexample: with legal moves `[[], [3,3,3]]`, the designations
`"3 3 3"` and the list `["3","3","3"]` resolve to index 1 but the
ASCII-comma designation `"3,3,3"` is not split (only the full-width comma
`，` is replaced), parses to no cards, and falls back to index 0 — a
different index. -/
theorem resolver_ascii_comma_cex :
    parse_card_response (some ⟨some (.str "3 3 3")⟩) [[], [3, 3, 3]] = .idx 1 ∧
    parse_card_response (some ⟨some (.list ["3", "3", "3"])⟩) [[], [3, 3, 3]] =
      .idx 1 ∧
    parse_card_response (some ⟨some (.str "3,3,3")⟩) [[], [3, 3, 3]] = .idx 0 ∧
    ParseResult.idx 0 ≠ ParseResult.idx 1 := by
  refine ⟨by decide, by decide, by decide, by decide⟩

/-- C2 (amended): tokenization splits on whitespace and on the full-width
comma `，` (not the ASCII comma): whenever the legal-move list has an entry
counter-equal to `{3,3,3}`, the designations `"3 3 3"`, `"3，3，3"` and the
list `["3","3","3"]` all resolve to the index of the first such entry; the
ASCII-comma designation `"3,3,3"` instead parses no cards and falls back to
index 0. -/
theorem resolver_comma_variant_order_insensitive (la : List (List Nat))
    (j : Nat) (h : la.findIdx? (fun a => counterEq a [3, 3, 3]) = some j) :
    parse_card_response (some ⟨some (.str "3 3 3")⟩) la = .idx j ∧
    parse_card_response (some ⟨some (.str "3，3，3")⟩) la = .idx j ∧
    parse_card_response (some ⟨some (.list ["3", "3", "3"])⟩) la = .idx j ∧
    parse_card_response (some ⟨some (.str "3,3,3")⟩) la = .idx 0 := by
  refine ⟨?_, ?_, ?_, ?_⟩
  · rw [parse_nonpass_eq _ _ (by decide) (by decide)]
    have hpc : parsedCards (pyStrip (rawToStr (.str "3 3 3"))) = [3, 3, 3] := by
      decide
    rw [hpc, h]
  · rw [parse_nonpass_eq _ _ (by decide) (by decide)]
    have hpc : parsedCards (pyStrip (rawToStr (.str "3，3，3"))) = [3, 3, 3] := by
      decide
    rw [hpc, h]
  · rw [parse_nonpass_eq _ _ (by decide) (by decide)]
    have hpc :
        parsedCards (pyStrip (rawToStr (.list ["3", "3", "3"]))) = [3, 3, 3] := by
      decide
    rw [hpc, h]
  · simp only [parse_card_response]
    rw [if_neg (by decide), if_pos (by decide)]

/-- Witness for the amended C2. -/
theorem resolver_comma_variant_order_insensitive_witness :
    ([[3, 3, 3]] : List (List Nat)).findIdx? (fun a => counterEq a [3, 3, 3]) =
      some 0 ∧
    (parse_card_response (some ⟨some (.str "3 3 3")⟩) [[3, 3, 3]] = .idx 0 ∧
     parse_card_response (some ⟨some (.str "3，3，3")⟩) [[3, 3, 3]] = .idx 0 ∧
     parse_card_response (some ⟨some (.list ["3", "3", "3"])⟩) [[3, 3, 3]] =
       .idx 0 ∧
     parse_card_response (some ⟨some (.str "3,3,3")⟩) [[3, 3, 3]] = .idx 0) :=
  ⟨by decide, resolver_comma_variant_order_insensitive [[3, 3, 3]] 0 (by decide)⟩

/-- C3 counterexample: on the empty action sequence (strictly shorter than
the processed length) `_reconstruct_history` returns early without clearing
anything: the stale played-move lists survive, so the result differs from a
replay from a cleared state. -/
theorem reconstruct_empty_seq_stale_cex :
    ([] : List (List Nat)).length <
      (GameState.mk [] none [[3]]
        [("landlord", [3])]).played_cards_with_player.length ∧
    reconstructHistory (GameState.mk [] none [[3]] [("landlord", [3])]) [] =
      GameState.mk [] none [[3]] [("landlord", [3])] ∧
    reconstructHistory (GameState.mk [] none [[3]] [("landlord", [3])]) [] ≠
      reconstructHistory (GameState.mk [] none [] []) [] := by
  refine ⟨by decide, by decide, by decide⟩

/-- C3 (amended): for every NON-EMPTY action sequence strictly shorter than
the processed length, the reconstructor clears `played_cards` and
`played_cards_with_player` and reprocesses the sequence from index 0, so the
result equals reconstruction from the cleared state; the empty sequence,
however, is a no-op that keeps the stale lists. -/
theorem reconstruct_shrink_replays_from_cleared (st : GameState)
    (seq : List (List Nat)) (hne : seq ≠ [])
    (hlt : seq.length < st.played_cards_with_player.length) :
    reconstructHistory st seq =
      reconstructHistory
        { st with played_cards := [], played_cards_with_player := [] } seq :=
  reconstructHistory_shrink st seq hne hlt

/-- Witness for the amended C3. -/
theorem reconstruct_shrink_replays_from_cleared_witness :
    ([[4]] : List (List Nat)) ≠ [] ∧
    ([[4]] : List (List Nat)).length <
      (GameState.mk [] none [[3], [5]]
        [("landlord", [3]), ("landlord_down", [5])]).played_cards_with_player.length ∧
    reconstructHistory
        (GameState.mk [] none [[3], [5]]
          [("landlord", [3]), ("landlord_down", [5])]) [[4]] =
      reconstructHistory
        { GameState.mk [] none [[3], [5]]
            [("landlord", [3]), ("landlord_down", [5])] with
          played_cards := [], played_cards_with_player := [] } [[4]] :=
  ⟨by decide, by decide,
    reconstruct_shrink_replays_from_cleared
      (GameState.mk [] none [[3], [5]]
        [("landlord", [3]), ("landlord_down", [5])]) [[4]]
      (by decide) (by decide)⟩

/-- C6: a designation that strips to the pass token `"过牌"`, or lowercases
to `"pass"`, resolves to the index of the first empty legal move, and to 0
when no empty entry exists; in particular `"过牌"` against `[[7], []]`
resolves to index 1. -/
theorem resolver_pass_token (la : List (List Nat)) :
    parse_card_response (some ⟨some (.str "过牌")⟩) la =
      .idx ((la.findIdx? (fun a => a.isEmpty)).getD 0) ∧
    parse_card_response (some ⟨some (.str "PASS")⟩) la =
      .idx ((la.findIdx? (fun a => a.isEmpty)).getD 0) ∧
    parse_card_response (some ⟨some (.str "过牌")⟩) [[7], []] = .idx 1 := by
  refine ⟨?_, ?_, by decide⟩
  · exact parse_pass_eq _ _ (Or.inl (by decide))
  · exact parse_pass_eq _ _ (Or.inr (by decide))

/-- C8: the History Reconstructor is idempotent: reprocessing the same
action sequence a second time is a no-op. -/
theorem reconstruct_idempotent (st : GameState) (seq : List (List Nat)) :
    reconstructHistory (reconstructHistory st seq) seq =
      reconstructHistory st seq :=
  reconstructHistory_twice st seq

/-- C10: on the first game, `play.py` invokes `reset_conversation_history()`
on the freshly created LLM seat agent, but `LLMAgent` defines no such
attribute, so setup fails with an attribute error before any turn. -/
theorem llm_seat_setup_attribute_error (k : String) :
    setupLLMSeat 0 (some k) =
      .error (.attributeError "reset_conversation_history") := by
  simp only [setupLLMSeat]
  rw [if_pos trivial, if_neg (by decide)]

/-- C4: with a non-empty legal-move list, `act` always returns a move that
is literally an element of that list — in the forced branch, the oracle
failure branch, and both resolver outcomes. -/
theorem act_returns_member_of_legal (st : GameState) (i : Infoset)
    (o : OracleRes) (hne : i.legal_actions ≠ []) :
    (act st i o).action ∈ i.legal_actions := by
  have hpos : 0 < i.legal_actions.length := List.length_pos.mpr hne
  by_cases hlen : i.legal_actions.length = 1
  · simp only [act, if_pos hlen]
    exact headD_mem _ _ hne
  · simp only [act, if_neg hlen]
    cases o with
    | failure => exact headD_mem _ _ hne
    | success d =>
      dsimp only
      cases hp : parse_card_response (some d) i.legal_actions with
      | idx j =>
        exact getD_mem_of_lt _ _ _ (parse_idx_lt _ _ _ hne hp)
      | illegal =>
        exact getD_mem_of_lt _ _ _ hpos

/-- Witness for C4. -/
theorem act_returns_member_of_legal_witness :
    (Infoset.mk [3] [] [[5]] [[5], []]).legal_actions ≠ [] ∧
    (act initGameState (Infoset.mk [3] [] [[5]] [[5], []])
        OracleRes.failure).action ∈
      (Infoset.mk [3] [] [[5]] [[5], []]).legal_actions :=
  ⟨by decide,
    act_returns_member_of_legal initGameState
      (Infoset.mk [3] [] [[5]] [[5], []]) OracleRes.failure (by decide)⟩

/-- C5: with exactly one legal move, `act` returns that sole entry, its
result does not depend on the oracle at all, and no API call event is
emitted. -/
theorem act_forced_skips_oracle (st : GameState) (i : Infoset)
    (o o2 : OracleRes) (hlen : i.legal_actions.length = 1) :
    i.legal_actions = [(act st i o).action] ∧
    act st i o = act st i o2 ∧
    TurnEvent.apiCall ∉ (act st i o).events := by
  have h1 : (act st i o).action = i.legal_actions.headD [] := by
    simp only [act, if_pos hlen]
  refine ⟨?_, ?_, ?_⟩
  · rw [h1]
    cases hla : i.legal_actions with
    | nil => rw [hla] at hlen; simp at hlen
    | cons a t =>
      rw [hla] at hlen
      have ht : t = [] := by
        simp only [List.length_cons] at hlen
        exact List.eq_nil_of_length_eq_zero (by omega)
      subst ht
      rfl
  · simp only [act, if_pos hlen]
  · simp only [act, if_pos hlen]
    simp

/-- Witness for C5: a forced pass, checked against two different oracle
behaviours. -/
theorem act_forced_skips_oracle_witness :
    (Infoset.mk [3] [] [[5]] [[]]).legal_actions.length = 1 ∧
    ((Infoset.mk [3] [] [[5]] [[]]).legal_actions =
        [(act initGameState (Infoset.mk [3] [] [[5]] [[]])
            OracleRes.failure).action] ∧
      act initGameState (Infoset.mk [3] [] [[5]] [[]]) OracleRes.failure =
        act initGameState (Infoset.mk [3] [] [[5]] [[]])
          (OracleRes.success ⟨some (.str "3")⟩) ∧
      TurnEvent.apiCall ∉
        (act initGameState (Infoset.mk [3] [] [[5]] [[]])
            OracleRes.failure).events) :=
  ⟨by decide,
    act_forced_skips_oracle initGameState (Infoset.mk [3] [] [[5]] [[]])
      OracleRes.failure (OracleRes.success ⟨some (.str "3")⟩) (by decide)⟩

/-- C7: a designation that parses to a non-empty card multiset matching no
legal move makes `parse_card_response` raise the distinct illegal-move
condition (`.illegal`, a different outcome from the `.idx 0` that an absent
answer returns directly), and `act` catches it, logs the warning, and still
falls back to the move at index 0. -/
theorem resolver_illegal_move_distinct (st : GameState) (i : Infoset)
    (raw : CardsField)
    (hne : i.legal_actions ≠ [])
    (hlen : i.legal_actions.length ≠ 1)
    (hp : ¬(pyStrip (rawToStr raw) = "过牌" ∨
      pyLower (pyStrip (rawToStr raw)) = "pass"))
    (hemp : (parsedCards (pyStrip (rawToStr raw))).isEmpty = false)
    (hnm : i.legal_actions.findIdx?
      (fun a => counterEq a (parsedCards (pyStrip (rawToStr raw)))) = none) :
    parse_card_response (some ⟨some raw⟩) i.legal_actions = .illegal ∧
    parse_card_response none i.legal_actions = .idx 0 ∧
    (act st i (.success ⟨some raw⟩)).action = i.legal_actions.headD [] ∧
    TurnEvent.illegalMoveWarning ∈ (act st i (.success ⟨some raw⟩)).events := by
  have hill : parse_card_response (some ⟨some raw⟩) i.legal_actions =
      .illegal := by
    rw [parse_nonpass_eq _ _ hp hemp, hnm]
  refine ⟨hill, by simp [parse_card_response], ?_, ?_⟩
  · simp only [act, if_neg hlen]
    rw [hill]
    exact getD_zero_eq_headD _ _
  · simp only [act, if_neg hlen]
    rw [hill]
    simp

/-- Witness for C7: oracle proposes a pair of nines with no matching legal
move. -/
theorem resolver_illegal_move_distinct_witness :
    (Infoset.mk [7] [] [] [[7], []]).legal_actions ≠ [] ∧
    (Infoset.mk [7] [] [] [[7], []]).legal_actions.length ≠ 1 ∧
    ¬(pyStrip (rawToStr (.str "9 9")) = "过牌" ∨
      pyLower (pyStrip (rawToStr (.str "9 9"))) = "pass") ∧
    (parsedCards (pyStrip (rawToStr (.str "9 9")))).isEmpty = false ∧
    (Infoset.mk [7] [] [] [[7], []]).legal_actions.findIdx?
      (fun a => counterEq a (parsedCards (pyStrip (rawToStr (.str "9 9"))))) =
      none ∧
    (parse_card_response (some ⟨some (.str "9 9")⟩)
        (Infoset.mk [7] [] [] [[7], []]).legal_actions = .illegal ∧
      parse_card_response none (Infoset.mk [7] [] [] [[7], []]).legal_actions =
        .idx 0 ∧
      (act initGameState (Infoset.mk [7] [] [] [[7], []])
          (.success ⟨some (.str "9 9")⟩)).action =
        (Infoset.mk [7] [] [] [[7], []]).legal_actions.headD [] ∧
      TurnEvent.illegalMoveWarning ∈
        (act initGameState (Infoset.mk [7] [] [] [[7], []])
            (.success ⟨some (.str "9 9")⟩)).events) :=
  ⟨by decide, by decide, by decide, by decide, by decide,
    resolver_illegal_move_distinct initGameState
      (Infoset.mk [7] [] [] [[7], []]) (.str "9 9") (by decide) (by decide)
      (by decide) (by decide) (by decide)⟩

/-- C9: when `act` resolves a non-forced, non-empty move `m` not yet in the
plain played list, it appends `m` itself; if the engine's next-turn action
sequence extends the old one with a suffix containing `m`, the reconstructor
appends `m` again, so after the next state sync the plain played list counts
`m` at least twice. -/
theorem own_move_double_counted (st : GameState) (i i2 : Infoset)
    (d : Decision) (suffix : List (List Nat)) (m : List Nat)
    (hseq : i.card_play_action_seq ≠ [])
    (hlen : i.legal_actions.length ≠ 1)
    (hm : (act st i (.success d)).action = m)
    (hmne : m.isEmpty = false)
    (hnotin : m ∉ (updateGameState st i).played_cards)
    (hseq2 : i2.card_play_action_seq = i.card_play_action_seq ++ suffix)
    (hms : m ∈ suffix) :
    2 ≤ (updateGameState (act st i (.success d)).state i2).played_cards.count m := by
  have hidem := updateGameState_idem st i
  have hstate : (act st i (.success d)).state =
      recordOwnMove (updateGameState st i) m := by
    simp only [act, if_neg hlen] at hm ⊢
    cases hp : parse_card_response (some d) i.legal_actions with
    | idx j =>
      rw [hp] at hm
      have hm2 : i.legal_actions.getD j [] = m := hm
      show recordOwnMove (updateGameState (updateGameState st i) i)
          (i.legal_actions.getD j []) = recordOwnMove (updateGameState st i) m
      rw [hidem, hm2]
    | illegal =>
      rw [hp] at hm
      have hm2 : i.legal_actions.getD 0 [] = m := hm
      show recordOwnMove (updateGameState (updateGameState st i) i)
          (i.legal_actions.getD 0 []) = recordOwnMove (updateGameState st i) m
      rw [hidem, hm2]
  rw [hstate]
  have hrec : recordOwnMove (updateGameState st i) m =
      { updateGameState st i with
        played_cards := (updateGameState st i).played_cards ++ [m] } := by
    rw [recordOwnMove, if_pos]
    exact ⟨by simp [hmne], hnotin⟩
  rw [hrec]
  have hsuf : suffix ≠ [] := by
    intro hc
    rw [hc] at hms
    simp at hms
  have hne2 : i2.card_play_action_seq.isEmpty = false := by
    have h2 : i2.card_play_action_seq ≠ [] := by
      rw [hseq2]
      intro hc
      exact hsuf (List.append_eq_nil.mp hc).2
    simpa [List.isEmpty_iff] using h2
  rw [updateGameState]
  set A := updateGameState st i with hA
  set S : GameState :=
    { A with played_cards := A.played_cards ++ [m] } with hS
  set B :=
    (if i2.last_move.isEmpty then
      { S with hand_cards := i2.player_hand_cards }
    else
      { S with hand_cards := i2.player_hand_cards,
               last_move := some i2.last_move }) with hB
  have hBp : B.played_cards = A.played_cards ++ [m] := by
    rw [hB]
    split <;> rfl
  have hBw : B.played_cards_with_player.length =
      i.card_play_action_seq.length := by
    have hw := updateGameState_wp_length st i hseq
    rw [hB]
    split <;> simpa [hS] using hw
  rw [reconstructHistory, hne2]
  simp only [Bool.false_eq_true, if_false]
  have hgt : ¬i2.card_play_action_seq.length ≤
      B.played_cards_with_player.length := by
    rw [hBw, hseq2]
    have : 0 < suffix.length := List.length_pos.mpr hsuf
    simp only [List.length_append]
    omega
  rw [if_neg hgt]
  have hdrop : i2.card_play_action_seq.drop B.played_cards_with_player.length =
      suffix := by
    rw [hBw, hseq2]
    exact List.drop_left _ _
  rw [hdrop, appendActions_played_cards, hBp]
  simp only [List.count_append]
  have h1 : List.count m [m] = 1 := by simp
  have h2 : 0 < (suffix.filter (fun a => !a.isEmpty)).count m := by
    rw [List.count_pos_iff]
    exact List.mem_filter.mpr ⟨hms, by simp [hmne]⟩
  omega

/-- Witness for C9: the agent plays a single 3 after one landlord move; the
engine's next feed repeats that 3, and the played list then counts it
twice. -/
theorem own_move_double_counted_witness :
    (Infoset.mk [3, 4] [] [[5]] [[3], [4], []]).card_play_action_seq ≠ [] ∧
    (Infoset.mk [3, 4] [] [[5]] [[3], [4], []]).legal_actions.length ≠ 1 ∧
    (act initGameState (Infoset.mk [3, 4] [] [[5]] [[3], [4], []])
        (.success ⟨some (.str "3")⟩)).action = [3] ∧
    ([3] : List Nat).isEmpty = false ∧
    [3] ∉ (updateGameState initGameState
      (Infoset.mk [3, 4] [] [[5]] [[3], [4], []])).played_cards ∧
    (Infoset.mk [4] [] [[5], [3], [6]] [[4], []]).card_play_action_seq =
      (Infoset.mk [3, 4] [] [[5]] [[3], [4], []]).card_play_action_seq ++
        [[3], [6]] ∧
    ([3] : List Nat) ∈ [[3], [6]] ∧
    2 ≤ (updateGameState
        (act initGameState (Infoset.mk [3, 4] [] [[5]] [[3], [4], []])
            (.success ⟨some (.str "3")⟩)).state
        (Infoset.mk [4] [] [[5], [3], [6]] [[4], []])).played_cards.count [3] :=
  ⟨by decide, by decide, by decide, by decide, by decide, by decide, by decide,
    own_move_double_counted initGameState
      (Infoset.mk [3, 4] [] [[5]] [[3], [4], []])
      (Infoset.mk [4] [] [[5], [3], [6]] [[4], []])
      ⟨some (.str "3")⟩ [[3], [6]] [3]
      (by decide) (by decide) (by decide) (by decide) (by decide)
      (by decide) (by decide)⟩

end DouZeroLLM
